import Mathlib

/-!
Verification of the dragonfly in-memory object-representation core:
the ASCII bit-packing codec (`src/core/detail/bitpacking.cc`), the
CompactObj hashing contract (spec §4.2, `compact_object_test.cc`) and the
StringMap key-encoding container (`src/core/string_map.cc`).

Machine bytes are modelled as `Nat` values (`< 256`, `< 128` for 7-bit
ASCII); 64-bit machine words as `Nat` reduced `% 2 ^ 64` where overflow
matters.  Buffers are `List Nat` of byte values.
-/

namespace Dfly

/-! ## ASCII bit-packing codec — `src/core/detail/bitpacking.cc` -/

/-- `absl::little_endian::Load64`: read 8 bytes as a little-endian 64-bit
value (`bitpacking.cc:55`, also `string_map.cc:24`). -/
def load64 (l : List Nat) : Nat :=
  (l.take 8).foldr (fun b acc => acc * 256 + b) 0

/-- The body of the 8-byte packing loop of `ascii_pack`
(`bitpacking.cc:55-60`): `val` is the `Load64` of the 8 input bytes;
`dest = val & 0xFF`, then for `i = 1..7`: `val >>= 1;
dest |= val & (0x7FUL << 7 * i)`. -/
def ascii_pack_block (val : Nat) : Nat :=
  let v1 := val >>> 1
  let d1 := (val &&& 0xFF) ||| (v1 &&& (0x7F <<< 7))
  let v2 := v1 >>> 1
  let d2 := d1 ||| (v2 &&& (0x7F <<< 14))
  let v3 := v2 >>> 1
  let d3 := d2 ||| (v3 &&& (0x7F <<< 21))
  let v4 := v3 >>> 1
  let d4 := d3 ||| (v4 &&& (0x7F <<< 28))
  let v5 := v4 >>> 1
  let d5 := d4 ||| (v5 &&& (0x7F <<< 35))
  let v6 := v5 >>> 1
  let d6 := d5 ||| (v6 &&& (0x7F <<< 42))
  let v7 := v6 >>> 1
  d6 ||| (v7 &&& (0x7F <<< 49))

/-- `memcpy(bin, &dest, 7)` (`bitpacking.cc:61`): the low 7 bytes of the
64-bit accumulator, little-endian. -/
def bytes7 (d : Nat) : List Nat :=
  [d &&& 0xFF, (d >>> 8) &&& 0xFF, (d >>> 16) &&& 0xFF, (d >>> 24) &&& 0xFF,
   (d >>> 32) &&& 0xFF, (d >>> 40) &&& 0xFF, (d >>> 48) &&& 0xFF]

/-- `ascii_pack(ascii, len, bin)` (`bitpacking.cc:50-70`): packs each full
group of 8 input bytes into 7 output bytes; the final `len mod 8` bytes are
copied verbatim. -/
def ascii_pack : List Nat → List Nat
  | a0 :: a1 :: a2 :: a3 :: a4 :: a5 :: a6 :: a7 :: rest =>
      bytes7 (ascii_pack_block (load64 [a0, a1, a2, a3, a4, a5, a6, a7]))
        ++ ascii_pack rest
  | tail => tail

/-- One iteration of the vector loop of `ascii_pack_simd`
(`bitpacking.cc:82-98`) on a 16-byte chunk.  The source discards the
results of `_mm_srli_epi64` and `_mm_or_si128` (lines 88-90 are expression
statements whose values are never assigned), so the stored `dest` is just
`val & mask` with `mask = 0x7F` per 64-bit lane: byte 0 of each 8-byte lane
masked to 7 bits, the remaining lane bytes zero.  The 16-byte store
followed by `memcpy(bin + 7, bin + 8, 7)` leaves these 14 output bytes
(bytes 14 and 15 of the store are overwritten by the next iteration or by
the scalar epilogue). -/
def pack_simd_chunk (c : List Nat) : List Nat :=
  [load64 c &&& 0x7F, 0, 0, 0, 0, 0, 0,
   load64 (c.drop 8) &&& 0x7F, 0, 0, 0, 0, 0, 0]

/-- `ascii_pack_simd(ascii, len, bin)` (`bitpacking.cc:73-103`): the vector
loop runs while at least 32 input bytes remain (the loop bound backs `end`
off by 32), consuming 16 bytes per iteration; the remainder is handed to
the scalar `ascii_pack`. -/
def ascii_pack_simd : List Nat → List Nat
  | a0 :: a1 :: a2 :: a3 :: a4 :: a5 :: a6 :: a7 ::
    a8 :: a9 :: a10 :: a11 :: a12 :: a13 :: a14 :: a15 :: rest =>
      if 16 ≤ rest.length then
        pack_simd_chunk [a0, a1, a2, a3, a4, a5, a6, a7,
                         a8, a9, a10, a11, a12, a13, a14, a15]
          ++ ascii_pack_simd rest
      else
        ascii_pack (a0 :: a1 :: a2 :: a3 :: a4 :: a5 :: a6 :: a7 ::
                    a8 :: a9 :: a10 :: a11 :: a12 :: a13 :: a14 :: a15 :: rest)
  | l => ascii_pack l

/-- `ascii_unpack(bin, ascii_len, ascii)` (`bitpacking.cc:110-131`): while
at least 8 output bytes remain, 7 packed bytes are expanded to 8 ASCII
bytes, carrying the previous packed byte `p`; the final `ascii_len mod 8`
bytes are copied verbatim.  `p` is a `uint8_t`, so `p >> 8 = 0` at the
start of each group. -/
def ascii_unpack (p : Nat) (bin : List Nat) (len : Nat) : List Nat :=
  if 8 ≤ len then
    match bin with
    | b0 :: b1 :: b2 :: b3 :: b4 :: b5 :: b6 :: rest =>
        ((p >>> 8) ||| ((b0 <<< 0) &&& 0x7F)) ::
        ((b0 >>> 7) ||| ((b1 <<< 1) &&& 0x7F)) ::
        ((b1 >>> 6) ||| ((b2 <<< 2) &&& 0x7F)) ::
        ((b2 >>> 5) ||| ((b3 <<< 3) &&& 0x7F)) ::
        ((b3 >>> 4) ||| ((b4 <<< 4) &&& 0x7F)) ::
        ((b4 >>> 3) ||| ((b5 <<< 5) &&& 0x7F)) ::
        ((b5 >>> 2) ||| ((b6 <<< 6) &&& 0x7F)) ::
        (b6 >>> 1) ::
        ascii_unpack b6 rest (len - 8)
    | short => short.take len
  else
    bin.take len

/-- Tail loop of `compare_packed` (`bitpacking.cc:153-157`): remaining
ASCII bytes are compared verbatim against the packed stream.  First
argument is the packed stream, second the ASCII bytes. -/
def cmp_tail : List Nat → List Nat → Bool
  | _, [] => true
  | p :: ps, a :: as => a == p && cmp_tail ps as
  | [], _ :: _ => false

/-- `compare_packed(packed, ascii, ascii_len)` (`bitpacking.cc:134-160`):
while at least 8 ASCII bytes remain, re-derives the 7 packed bytes from
adjacent ASCII pairs (`conv = (ascii[0] >> i) | (ascii[1] << (7 - i))`,
truncated to `uint8_t`) and compares (`res` accumulates all 7 before the
early return); the sub-8 tail is compared verbatim.  When fewer than 7
packed bytes remain against 8 ASCII bytes the C code would read out of
bounds; that unreachable case is modelled as a mismatch. -/
def compare_packed (packed : List Nat) : List Nat → Bool
  | a0 :: a1 :: a2 :: a3 :: a4 :: a5 :: a6 :: a7 :: arest =>
      match packed with
      | p0 :: p1 :: p2 :: p3 :: p4 :: p5 :: p6 :: prest =>
          (decide ((((a0 >>> 0) ||| (a1 <<< 7)) &&& 0xFF) = p0) &&
           decide ((((a1 >>> 1) ||| (a2 <<< 6)) &&& 0xFF) = p1) &&
           decide ((((a2 >>> 2) ||| (a3 <<< 5)) &&& 0xFF) = p2) &&
           decide ((((a3 >>> 3) ||| (a4 <<< 4)) &&& 0xFF) = p3) &&
           decide ((((a4 >>> 4) ||| (a5 <<< 3)) &&& 0xFF) = p4) &&
           decide ((((a5 >>> 5) ||| (a6 <<< 2)) &&& 0xFF) = p5) &&
           decide ((((a6 >>> 6) ||| (a7 <<< 1)) &&& 0xFF) = p6)) &&
          compare_packed prest arest
      | _ => false
  | ascii => cmp_tail packed ascii

/-- A buffer is all-ASCII when every byte is a 7-bit value. -/
def AllAscii (l : List Nat) : Prop := ∀ b ∈ l, b < 128

instance : DecidablePred AllAscii := fun l =>
  inferInstanceAs (Decidable (∀ b ∈ l, b < 128))

/-- `_mm_or_si128` on two 16-byte lanes (`bitpacking.cc:35`): bytewise or. -/
def or128 (a b : List Nat) : List Nat := List.zipWith (fun x y => x ||| y) a b

/-- The vector loop of `validate_ascii_fast` (`bitpacking.cc:32-37`): while
16 input bytes remain (`i <= len - 16`), or the chunk into the 16
accumulator lanes; returns the final lanes and the unprocessed tail. -/
def validate_loop (lanes l : List Nat) : List Nat × List Nat :=
  if h : 16 ≤ l.length then validate_loop (or128 lanes (l.take 16)) (l.drop 16)
  else (lanes, l)
termination_by l.length
decreasing_by
  simp only [List.length_drop]
  omega

/-- `_mm_movemask_epi8` (`bitpacking.cc:38`): bit `j` of the result is the
sign bit (bit 7) of byte `j`. -/
def movemask (l : List Nat) : Nat :=
  l.foldr (fun b acc => 2 * acc + ((b >>> 7) &&& 1)) 0

/-- Tail loop of `validate_ascii_fast` (`bitpacking.cc:40-43`):
`tail_has_error |= src[i]` over the remaining bytes (8-bit accumulator). -/
def tail_or (l : List Nat) : Nat := l.foldl (fun acc b => acc ||| b) 0

/-- `validate_ascii_fast(src, len)` (`bitpacking.cc:29-47`): true iff no
processed lane sign bit and no tail byte high bit is set
(`error_mask |= tail_has_error & 0x80; return !error_mask`). -/
def validate_ascii_fast (l : List Nat) : Bool :=
  let r := validate_loop (List.replicate 16 0) l
  (movemask r.1 ||| (tail_or r.2 &&& 0x80)) == 0

/-! ## CompactObj hashing — modelled from the spec

`compact_object.cc` is not under `src/`; only its unit test
(`compact_object_test.cc`) and the spec describe it.  The definitions below
are modelled from the spec (§3, §4.2) and from the constants the test
documents: the hash is the fixed-seed 64-bit XXH3 of the logical bytes
(`XXH3_64bits_withSeed`, seed `kSeed = 24061983`, `compact_object_test.cc:26`),
and `SetString` picks small-int / packed-inline / raw-inline / heap storage
in that order. -/

def M64 : Nat := 2 ^ 64

def PRIME64_1 : Nat := 0x9E3779B185EBCA87
def PRIME64_2 : Nat := 0xC2B2AE3D27D4EB4F
def PRIME64_3 : Nat := 0x165667B19E3779F9
def PRIME_MX1 : Nat := 0x165667919E3779F9
def PRIME_MX2 : Nat := 0x9FB21C651E98DF25

/-- Modelled from the spec: the first 64 bytes of the XXH3 default secret
(`XXH3_kSecret` of the xxhash library the test links against); the
length classes exercised by the repository's tests (≤ 32 input bytes) read
only secret offsets 0-55. -/
def kXXHSecret : List Nat :=
  [0xb8, 0xfe, 0x6c, 0x39, 0x23, 0xa4, 0x4b, 0xbe,
   0x7c, 0x01, 0x81, 0x2c, 0xf7, 0x21, 0xad, 0x1c,
   0xde, 0xd4, 0x6d, 0xe9, 0x83, 0x90, 0x97, 0xdb,
   0x72, 0x40, 0xa4, 0xa4, 0xb7, 0xb3, 0x67, 0x1f,
   0xcb, 0x79, 0xe6, 0x4e, 0xcc, 0xc0, 0xe5, 0x78,
   0x82, 0x5a, 0xd0, 0x7d, 0xcc, 0xff, 0x72, 0x21,
   0xb8, 0x08, 0x46, 0x74, 0xf7, 0x43, 0x24, 0x8e,
   0xe0, 0x35, 0x90, 0xe6, 0x81, 0x3a, 0x26, 0x4c]

def readLE32 (l : List Nat) (off : Nat) : Nat :=
  l.getD off 0 + l.getD (off + 1) 0 * 2 ^ 8 + l.getD (off + 2) 0 * 2 ^ 16 +
    l.getD (off + 3) 0 * 2 ^ 24

def readLE64 (l : List Nat) (off : Nat) : Nat :=
  readLE32 l off + readLE32 l (off + 4) * 2 ^ 32

def swap32 (x : Nat) : Nat :=
  x % 256 * 2 ^ 24 + x / 2 ^ 8 % 256 * 2 ^ 16 + x / 2 ^ 16 % 256 * 2 ^ 8 + x / 2 ^ 24 % 256

def rotl64 (x k : Nat) : Nat := ((x <<< k) ||| (x >>> (64 - k))) % M64

def mul128_fold64 (a b : Nat) : Nat := (a * b) % M64 ^^^ (a * b) / M64 % M64

def xxh64_avalanche (x : Nat) : Nat :=
  let x := x % M64
  let x := x ^^^ (x >>> 33)
  let x := x * PRIME64_2 % M64
  let x := x ^^^ (x >>> 29)
  let x := x * PRIME64_3 % M64
  x ^^^ (x >>> 32)

def xxh3_avalanche (x : Nat) : Nat :=
  let x := x % M64
  let x := x ^^^ (x >>> 37)
  let x := x * PRIME_MX1 % M64
  x ^^^ (x >>> 32)

def rrmxmx (h len : Nat) : Nat :=
  let h := h % M64
  let h := h ^^^ (rotl64 h 49 ^^^ rotl64 h 24)
  let h := h * PRIME_MX2 % M64
  let h := h ^^^ ((h >>> 35) + len) % M64
  let h := h % M64 * PRIME_MX2 % M64
  h ^^^ (h >>> 28)

def mix16B (input : List Nat) (inOff secOff seed : Nat) : Nat :=
  let lo := readLE64 input inOff ^^^ (readLE64 kXXHSecret secOff + seed) % M64
  let hi := readLE64 input (inOff + 8) ^^^
    (readLE64 kXXHSecret (secOff + 8) + M64 - seed % M64) % M64
  mul128_fold64 lo hi

def xxh3_len_1to3 (input : List Nat) (seed : Nat) : Nat :=
  let len := input.length
  let c1 := input.getD 0 0
  let c2 := input.getD (len / 2) 0
  let c3 := input.getD (len - 1) 0
  let combined := c1 * 2 ^ 16 + c2 * 2 ^ 24 + c3 + len * 2 ^ 8
  let bitflip := ((readLE32 kXXHSecret 0 ^^^ readLE32 kXXHSecret 4) + seed) % M64
  xxh64_avalanche (combined ^^^ bitflip)

def xxh3_len_4to8 (input : List Nat) (seed : Nat) : Nat :=
  let len := input.length
  let seed2 := seed ^^^ (swap32 (seed % 2 ^ 32) * 2 ^ 32)
  let input1 := readLE32 input 0
  let input2 := readLE32 input (len - 4)
  let bitflip := ((readLE64 kXXHSecret 8 ^^^ readLE64 kXXHSecret 16) + M64 - seed2 % M64) % M64
  let input64 := input2 + input1 * 2 ^ 32
  rrmxmx (input64 ^^^ bitflip) len

def xxh3_len_9to16 (input : List Nat) (seed : Nat) : Nat :=
  let len := input.length
  let bitflip1 := ((readLE64 kXXHSecret 24 ^^^ readLE64 kXXHSecret 32) + seed) % M64
  let bitflip2 := ((readLE64 kXXHSecret 40 ^^^ readLE64 kXXHSecret 48) + M64 - seed % M64) % M64
  let inputLo := readLE64 input 0 ^^^ bitflip1
  let inputHi := readLE64 input (len - 8) ^^^ bitflip2
  let acc := (len + (swap32 (inputLo % 2 ^ 32) * 2 ^ 32 + swap32 (inputLo / 2 ^ 32)) + inputHi +
    mul128_fold64 inputLo inputHi) % M64
  xxh3_avalanche acc

/-- The nested pair mixes of the 17-128-byte class: level `i` mixes the
16-byte stripes at `16 * i` from the front and `16 * (i + 1)` from the
back, keyed at secret offsets `32 * i` and `32 * i + 16`. -/
def xxh3_17to128_pairs (input : List Nat) (seed : Nat) : Nat → Nat
  | 0 => input.length * PRIME64_1 % M64
  | i + 1 =>
      (xxh3_17to128_pairs input seed i +
        mix16B input (16 * i) (32 * i) seed +
        mix16B input (input.length - 16 * (i + 1)) (32 * i + 16) seed) % M64

def xxh3_len_17to128 (input : List Nat) (seed : Nat) : Nat :=
  xxh3_avalanche (xxh3_17to128_pairs input seed ((input.length + 31) / 32))

/-- Modelled from the spec: `XXH3_64bits_withSeed` for inputs up to 128
bytes (the sizes this core hashes inline); validated below against the two
64-bit constants recorded in `compact_object_test.cc` (lines 100, 128). -/
def xxh3_64 (input : List Nat) (seed : Nat) : Nat :=
  if input.length = 0 then
    xxh64_avalanche (seed ^^^ readLE64 kXXHSecret 56 ^^^ readLE64 kXXHSecret 64)
  else if input.length ≤ 3 then xxh3_len_1to3 input seed
  else if input.length ≤ 8 then xxh3_len_4to8 input seed
  else if input.length ≤ 16 then xxh3_len_9to16 input seed
  else xxh3_len_17to128 input seed

/-- The fixed hash seed, `compact_object_test.cc:26`. -/
def kSeed : Nat := 24061983

/-- The static `CompactObj::HashCode(string_view)` content hash
(used by `string_map.cc:71`): fixed-seed XXH3 over the raw bytes.
Modelled from the spec (§4.2). -/
def CompactObjHashCode (s : List Nat) : Nat := xxh3_64 s kSeed

/-- Decimal digits of `n`, least significant first (`fuel` bounds the
recursion; callers pass `fuel = n`). -/
def decDigitsAux : Nat → Nat → List Nat
  | 0, _ => []
  | _ + 1, 0 => []
  | fuel + 1, n => n % 10 :: decDigitsAux fuel (n / 10)

/-- Canonical decimal byte text of a natural number. -/
def natDecBytes (n : Nat) : List Nat :=
  if n = 0 then [48] else ((decDigitsAux n n).reverse.map (fun d => d + 48))

/-- Canonical decimal byte text of an integer (`'-'` prefix when negative). -/
def intDecBytes (i : Int) : List Nat :=
  if i < 0 then 45 :: natDecBytes i.natAbs else natDecBytes i.natAbs

def parseDecNat : List Nat → Option Nat
  | [] => none
  | l => l.foldl (fun acc b => match acc with
      | none => none
      | some n => if 48 ≤ b ∧ b ≤ 57 then some (n * 10 + (b - 48)) else none)
      (some 0)

def parseSignedDec (l : List Nat) : Option Int :=
  match l with
  | 45 :: rest => (parseDecNat rest).map (fun n => -(n : Int))
  | _ => (parseDecNat l).map (fun n => (n : Int))

/-- Modelled from the spec (§4.2 step 1): the string is the canonical
decimal text of an integer representable in the object's small-int width
(64-bit signed). -/
def isCanonicalInt (s : List Nat) : Bool :=
  match parseSignedDec s with
  | none => false
  | some i => decide (-(2 ^ 63) ≤ i ∧ i < 2 ^ 63) && decide (intDecBytes i = s)

/-- Packed output size of the codec for `n` ASCII bytes: 7 bytes per full
group of 8, remainder verbatim (`bitpacking.cc:50-70`). -/
def binpacked_len (n : Nat) : Nat := 7 * (n / 8) + n % 8

/-- Modelled from the spec (§9 open question, pinned by the tests): the
inline buffer capacity — a 17-byte ASCII string packs inline
(`InlineAsciiEncoded`), a 22-byte one does not (`NonInline`). -/
def kInlineCapacity : Nat := 16

/-- The CompactObj variant container, modelled from the spec (§3, §9):
an explicit closed sum {small int, packed-ASCII inline, raw inline,
heap/foreign string}. -/
inductive CompactObj where
  | smallInt (v : Int)
  | inlinePacked (packed : List Nat) (len : Nat)
  | inlineRaw (bytes : List Nat)
  | heapStr (bytes : List Nat)
deriving DecidableEq

/-- `SetString` representation choice, modelled from the spec (§4.2
decision order): canonical-decimal integer → packed ASCII if it fits
inline → raw inline → heap. -/
def CompactObj.setString (s : List Nat) : CompactObj :=
  if isCanonicalInt s then .smallInt ((parseSignedDec s).getD 0)
  else if s.all (fun b => b < 128) && binpacked_len s.length ≤ kInlineCapacity then
    .inlinePacked (ascii_pack s) s.length
  else if s.length ≤ kInlineCapacity then .inlineRaw s
  else .heapStr s

/-- The logical string bytes of an object (unpacking transiently for the
packed representation, printing for the small-int representation). -/
def CompactObj.logicalBytes : CompactObj → List Nat
  | .smallInt v => intDecBytes v
  | .inlinePacked p len => ascii_unpack 0 p len
  | .inlineRaw b => b
  | .heapStr b => b

/-- `HashCode()` with an arbitrary byte hash: the hash of the logical
bytes (spec §4.2: "computed over the *logical* bytes, unpacking
transiently if necessary"). -/
def CompactObj.hashCodeWith (h : List Nat → Nat) (o : CompactObj) : Nat :=
  h o.logicalBytes

/-- `HashCode()`: the fixed-seed XXH3 of the logical bytes. -/
def CompactObj.HashCode (o : CompactObj) : Nat :=
  o.hashCodeWith CompactObjHashCode

/-- Equality of compact objects, modelled from the spec (§4.2: defined
over logical content, agreeing with `HashCode`). -/
def CompactObj.equalsContent (o1 o2 : CompactObj) : Bool :=
  o1.logicalBytes == o2.logicalBytes

/-! ## StringMap — `src/src/core/string_map.cc`

The sds allocation discipline (`sdslen`, `sdsnewlen`, `AllocSdsWithSpace`)
and the dense-set internals (`AddInternal`, `ContainsInternal`) are not
under `src/`; they are modelled from the spec (§3, §4.3): an sds buffer
carries its stored length, `AllocSdsWithSpace(strlen, space)` yields an
sds of length `strlen` with a NUL terminator and `space` extra bytes, and
insertion succeeds iff the key is new.  Pointers are modelled as addresses
into an explicit heap of live blocks. -/

/-- `absl::little_endian::Store64` (`string_map.cc:42`): the 8 bytes of a
64-bit value, little-endian. -/
def le64 (v : Nat) : List Nat :=
  [v % 256, v / 2 ^ 8 % 256, v / 2 ^ 16 % 256, v / 2 ^ 24 % 256,
   v / 2 ^ 32 % 256, v / 2 ^ 40 % 256, v / 2 ^ 48 % 256, v / 2 ^ 56 % 256]

/-- An sds-style buffer: stored length plus byte contents (Modelled from
the spec: sds-style length-aware allocation, §3/glossary). -/
structure SdsBuf where
  len : Nat
  bytes : List Nat
deriving DecidableEq

/-- `sdslen`: the stored length of an sds buffer. -/
def sdslen (s : SdsBuf) : Nat := s.len

/-- `GetValue(sds key)` (`string_map.cc:22-25`):
`Load64(key + sdslen(key) + 1)` — the value pointer stored in the 8 bytes
after the field bytes and the NUL. -/
def GetValue (key : SdsBuf) : Nat := load64 (key.bytes.drop (sdslen key + 1))

/-- The allocator boundary: live blocks addressed by a monotone counter. -/
structure Heap where
  next : Nat
  blocks : List (Nat × SdsBuf)
deriving DecidableEq

def Heap.alloc (h : Heap) (b : SdsBuf) : Nat × Heap :=
  (h.next, ⟨h.next + 1, (h.next, b) :: h.blocks⟩)

def Heap.lookup (h : Heap) (a : Nat) : Option SdsBuf :=
  (h.blocks.find? (fun p => p.1 == a)).map Prod.snd

def Heap.free (h : Heap) (a : Nat) : Heap :=
  ⟨h.next, h.blocks.filter (fun p => p.1 ≠ a)⟩

def Heap.store (h : Heap) (a : Nat) (b : SdsBuf) : Heap :=
  ⟨h.next, h.blocks.map (fun p => if p.1 = a then (a, b) else p)⟩

/-- Well-formed heap: live addresses precede the allocation counter and
the counter stays in 64-bit pointer range. -/
def Heap.WF (h : Heap) : Prop :=
  (∀ p ∈ h.blocks, p.1 < h.next) ∧ h.next + 1 < 2 ^ 64

/-- The entry-key layout the spec documents (§3):
`[field bytes][NUL][8-byte little-endian value pointer]`, with the sds
length covering only the field bytes. -/
def entryKey (field : List Nat) (valAddr : Nat) : SdsBuf :=
  ⟨field.length, field ++ 0 :: le64 valAddr⟩

/-- `StringMap::ObjDelete(obj, has_ttl)` (`string_map.cc:101-106`): frees
the value buffer recovered via `GetValue`, then the key buffer.  The
`has_ttl` argument is ignored by the source.  (A dangling key address is
undefined behaviour in C; modelled as a no-op.) -/
def StringMapObjDelete (h : Heap) (keyAddr : Nat) (hasTtl : Bool) : Heap :=
  match h.lookup keyAddr with
  | some key => (h.free (GetValue key)).free keyAddr
  | none => h

def UINT32_MAX : Nat := 4294967295

/-- Result of `AddOrSet`: the two `LOG(FATAL)`/`CHECK` aborts are explicit
outcomes carrying the heap at the abort point. -/
inductive AddResult where
  | fatalTtl (h : Heap)
  | fatalDup (h : Heap)
  | ok (fields : List (List Nat)) (h : Heap) (keyAddr : Nat)
deriving DecidableEq

/-- `StringMap::AddOrSet(field, value, ttl_sec)` (`string_map.cc:33-53`):
`CHECK_EQ(ttl_sec, UINT32_MAX)`; allocate the key sds with 8 spare bytes
and copy the field in; allocate the value sds; `Store64` the value address
into the key's trailing 8 bytes; insert (`AddInternal`, modelled from the
spec: succeeds iff the field is new); on duplicate, `ObjDelete` the fresh
key and value, then `LOG(FATAL) << "TBD:ORSET"`. -/
def StringMapAddOrSet (fields : List (List Nat)) (h : Heap)
    (field value : List Nat) (ttl_sec : Nat) : AddResult :=
  if ttl_sec ≠ UINT32_MAX then .fatalTtl h
  else
    let a1 := h.alloc ⟨field.length, field ++ 0 :: List.replicate 8 0⟩
    let a2 := a1.2.alloc ⟨value.length, value⟩
    let h3 := a2.2.store a1.1 (entryKey field a2.1)
    if field ∈ fields then
      .fatalDup (StringMapObjDelete h3 a1.1 false)
    else
      .ok (field :: fields) h3 a1.1

/-- `StringMap::Erase(field)` (`string_map.cc:55-57`): unconditionally
`return false`, touching nothing. -/
def StringMapErase (fields : List (List Nat)) (h : Heap) (field : List Nat) :
    Bool × List (List Nat) × Heap :=
  (false, fields, h)

/-- `StringMap::Contains(field)` (`string_map.cc:59-61`), with
`ContainsInternal` modelled from the spec: membership of the field. -/
def StringMapContains (fields : List (List Nat)) (field : List Nat) : Bool :=
  decide (field ∈ fields)

/-- `StringMap::Hash(obj, cookie)` (`string_map.cc:67-72`):
`CHECK_EQ(cookie, 0u)` (modelled as `none` on abort), then CompactObj's
content hash of `string_view{key, sdslen(key)}` — the field substring. -/
def StringMapHash (obj : SdsBuf) (cookie : Nat) : Option Nat :=
  if cookie ≠ 0 then none
  else some (CompactObjHashCode (obj.bytes.take (sdslen obj)))

/-- `StringMap::ObjEqual(left, right, right_cookie)`
(`string_map.cc:74-85`): `CHECK_EQ(cookie, 0u)`; compare `sdslen`s, then
`memcmp` over the first `sdslen(s1)` bytes. -/
def StringMapObjEqual (left right : SdsBuf) (cookie : Nat) : Option Bool :=
  if cookie ≠ 0 then none
  else if sdslen left ≠ sdslen right then some false
  else some (decide (left.bytes.take (sdslen left) = right.bytes.take (sdslen left)))

end Dfly

/-! ## Supporting arithmetic lemmas -/

namespace Dfly

lemma and255 (x : Nat) : x &&& 0xFF = x % 256 := by
  have h := Nat.and_pow_two_sub_one_eq_mod x 8
  norm_num at h
  exact h

lemma and127 (x : Nat) : x &&& 0x7F = x % 128 := by
  have h := Nat.and_pow_two_sub_one_eq_mod x 7
  norm_num at h
  exact h

lemma lor_eq_add (k x y : Nat) (hx : x < 2 ^ k) (hy : y % 2 ^ k = 0) :
    x ||| y = x + y := by
  obtain ⟨c, hc⟩ := Nat.dvd_of_mod_eq_zero hy
  subst hc
  rw [Nat.lor_comm, ← Nat.mul_add_lt_is_or hx, Nat.add_comm]

lemma and_mask7_shift (x k : Nat) : x &&& (0x7F <<< k) = x / 2 ^ k % 128 * 2 ^ k := by
  have h127 : (0x7F : Nat) = 2 ^ 7 - 1 := rfl
  have h128 : (128 : Nat) = 2 ^ 7 := rfl
  apply Nat.eq_of_testBit_eq
  intro j
  rw [h127, h128, ← Nat.shiftLeft_eq, ← Nat.shiftRight_eq_div_pow]
  simp only [Nat.testBit_and, Nat.testBit_shiftLeft, Nat.testBit_mod_two_pow,
    Nat.testBit_shiftRight, Nat.testBit_two_pow_sub_one]
  by_cases h : k ≤ j
  · have hjk : k + (j - k) = j := by omega
    simp only [h, hjk]
    simp
    cases hx : x.testBit j <;> cases hd : decide (j - k < 7) <;> simp
  · simp [h]

lemma load64_eq (a0 a1 a2 a3 a4 a5 a6 a7 : Nat) :
    load64 [a0, a1, a2, a3, a4, a5, a6, a7] =
      a0 + a1 * 2 ^ 8 + a2 * 2 ^ 16 + a3 * 2 ^ 24 + a4 * 2 ^ 32 +
      a5 * 2 ^ 40 + a6 * 2 ^ 48 + a7 * 2 ^ 56 := by
  simp [load64]
  ring

set_option maxHeartbeats 1000000 in
lemma pack_block_eq (a0 a1 a2 a3 a4 a5 a6 a7 : Nat)
    (h0 : a0 < 128) (h1 : a1 < 128) (h2 : a2 < 128) (h3 : a3 < 128)
    (h4 : a4 < 128) (h5 : a5 < 128) (h6 : a6 < 128) (h7 : a7 < 128) :
    ascii_pack_block (load64 [a0, a1, a2, a3, a4, a5, a6, a7]) =
      a0 + a1 * 2 ^ 7 + a2 * 2 ^ 14 + a3 * 2 ^ 21 + a4 * 2 ^ 28 +
      a5 * 2 ^ 35 + a6 * 2 ^ 42 + a7 * 2 ^ 49 := by
  simp only [ascii_pack_block]
  rw [load64_eq]
  set S := a0 + a1 * 2 ^ 8 + a2 * 2 ^ 16 + a3 * 2 ^ 24 + a4 * 2 ^ 32 +
      a5 * 2 ^ 40 + a6 * 2 ^ 48 + a7 * 2 ^ 56 with hS
  simp only [Nat.shiftRight_eq_div_pow]
  simp only [and255]
  simp only [and_mask7_shift]
  simp only [Nat.div_div_eq_div_mul]
  norm_num
  have e0 : S % 256 = a0 := by omega
  have e1 : S / 256 % 128 = a1 := by omega
  have e2 : S / 65536 % 128 = a2 := by omega
  have e3 : S / 16777216 % 128 = a3 := by omega
  have e4 : S / 4294967296 % 128 = a4 := by omega
  have e5 : S / 1099511627776 % 128 = a5 := by omega
  have e6 : S / 281474976710656 % 128 = a6 := by omega
  have e7 : S / 72057594037927936 % 128 = a7 := by omega
  rw [e0, e1, e2, e3, e4, e5, e6, e7]
  rw [lor_eq_add 7 a0 (a1 * 128) (by omega) (by omega)]
  rw [lor_eq_add 14 (a0 + a1 * 128) (a2 * 16384) (by omega) (by omega)]
  rw [lor_eq_add 21 (a0 + a1 * 128 + a2 * 16384) (a3 * 2097152) (by omega) (by omega)]
  rw [lor_eq_add 28 (a0 + a1 * 128 + a2 * 16384 + a3 * 2097152) (a4 * 268435456) (by omega)
    (by omega)]
  rw [lor_eq_add 35 (a0 + a1 * 128 + a2 * 16384 + a3 * 2097152 + a4 * 268435456)
    (a5 * 34359738368) (by omega) (by omega)]
  rw [lor_eq_add 42
    (a0 + a1 * 128 + a2 * 16384 + a3 * 2097152 + a4 * 268435456 + a5 * 34359738368)
    (a6 * 4398046511104) (by omega) (by omega)]
  rw [lor_eq_add 49
    (a0 + a1 * 128 + a2 * 16384 + a3 * 2097152 + a4 * 268435456 + a5 * 34359738368 +
      a6 * 4398046511104)
    (a7 * 562949953421312) (by omega) (by omega)]

lemma bytes7_eq (d : Nat) :
    bytes7 d = [d % 256, d / 256 % 256, d / 65536 % 256, d / 16777216 % 256,
      d / 4294967296 % 256, d / 1099511627776 % 256, d / 281474976710656 % 256] := by
  simp only [bytes7, and255, Nat.shiftRight_eq_div_pow]

lemma unpack_cons (p b0 b1 b2 b3 b4 b5 b6 : Nat) (rest : List Nat) (len : Nat) (h : 8 ≤ len) :
    ascii_unpack p (b0 :: b1 :: b2 :: b3 :: b4 :: b5 :: b6 :: rest) len =
      ((p >>> 8) ||| ((b0 <<< 0) &&& 0x7F)) ::
      ((b0 >>> 7) ||| ((b1 <<< 1) &&& 0x7F)) ::
      ((b1 >>> 6) ||| ((b2 <<< 2) &&& 0x7F)) ::
      ((b2 >>> 5) ||| ((b3 <<< 3) &&& 0x7F)) ::
      ((b3 >>> 4) ||| ((b4 <<< 4) &&& 0x7F)) ::
      ((b4 >>> 3) ||| ((b5 <<< 5) &&& 0x7F)) ::
      ((b5 >>> 2) ||| ((b6 <<< 6) &&& 0x7F)) ::
      (b6 >>> 1) ::
      ascii_unpack b6 rest (len - 8) := by
  rw [ascii_unpack.eq_def, if_pos h]

lemma unpack_short (p : Nat) (bin : List Nat) (len : Nat) (h : len < 8) :
    ascii_unpack p bin len = bin.take len := by
  rw [ascii_unpack.eq_def, if_neg (by omega)]

lemma short_of_not8 (l : List Nat)
    (hne : ∀ (a0 a1 a2 a3 a4 a5 a6 a7 : Nat) (rest : List Nat),
      l = a0 :: a1 :: a2 :: a3 :: a4 :: a5 :: a6 :: a7 :: rest → False) : l.length < 8 := by
  rcases l with _ | ⟨a0, _ | ⟨a1, _ | ⟨a2, _ | ⟨a3, _ | ⟨a4, _ | ⟨a5, _ | ⟨a6, _ | ⟨a7, rest⟩⟩⟩⟩⟩⟩⟩⟩
  · simp
  · simp
  · simp
  · simp
  · simp
  · simp
  · simp
  · simp
  · exact absurd rfl (hne a0 a1 a2 a3 a4 a5 a6 a7 rest)

lemma pack_short (l : List Nat) (h : l.length < 8) : ascii_pack l = l := by
  rcases l with _ | ⟨a0, _ | ⟨a1, _ | ⟨a2, _ | ⟨a3, _ | ⟨a4, _ | ⟨a5, _ | ⟨a6, _ | ⟨a7, rest⟩⟩⟩⟩⟩⟩⟩⟩
  · rfl
  · rfl
  · rfl
  · rfl
  · rfl
  · rfl
  · rfl
  · rfl
  · simp only [List.length_cons] at h
    omega

set_option maxHeartbeats 1000000 in
lemma unpack_pack_block (p a0 a1 a2 a3 a4 a5 a6 a7 : Nat) (rest : List Nat) (len : Nat)
    (hp : p < 256)
    (h0 : a0 < 128) (h1 : a1 < 128) (h2 : a2 < 128) (h3 : a3 < 128)
    (h4 : a4 < 128) (h5 : a5 < 128) (h6 : a6 < 128) (h7 : a7 < 128) :
    ascii_unpack p
      (bytes7 (a0 + a1 * 2 ^ 7 + a2 * 2 ^ 14 + a3 * 2 ^ 21 + a4 * 2 ^ 28 +
        a5 * 2 ^ 35 + a6 * 2 ^ 42 + a7 * 2 ^ 49) ++ rest) (8 + len) =
      a0 :: a1 :: a2 :: a3 :: a4 :: a5 :: a6 :: a7 ::
        ascii_unpack ((a0 + a1 * 2 ^ 7 + a2 * 2 ^ 14 + a3 * 2 ^ 21 + a4 * 2 ^ 28 +
          a5 * 2 ^ 35 + a6 * 2 ^ 42 + a7 * 2 ^ 49) / 281474976710656 % 256) rest len := by
  set S := a0 + a1 * 2 ^ 7 + a2 * 2 ^ 14 + a3 * 2 ^ 21 + a4 * 2 ^ 28 +
      a5 * 2 ^ 35 + a6 * 2 ^ 42 + a7 * 2 ^ 49 with hS
  rw [bytes7_eq]
  simp only [List.cons_append]
  rw [unpack_cons _ _ _ _ _ _ _ _ _ _ (by omega)]
  have hlen : 8 + len - 8 = len := by omega
  rw [hlen]
  simp only [Nat.shiftRight_eq_div_pow, Nat.shiftLeft_eq, and127]
  simp only [List.cons.injEq]
  refine ⟨?_, ?_, ?_, ?_, ?_, ?_, ?_, ?_, rfl⟩
  · rw [lor_eq_add 0 (p / 2 ^ 8) (S % 256 * 2 ^ 0 % 128) (by omega) (by omega)]
    omega
  · rw [lor_eq_add 1 (S % 256 / 2 ^ 7) (S / 256 % 256 * 2 ^ 1 % 128) (by omega) (by omega)]
    omega
  · rw [lor_eq_add 2 (S / 256 % 256 / 2 ^ 6) (S / 65536 % 256 * 2 ^ 2 % 128) (by omega)
      (by omega)]
    omega
  · rw [lor_eq_add 3 (S / 65536 % 256 / 2 ^ 5) (S / 16777216 % 256 * 2 ^ 3 % 128) (by omega)
      (by omega)]
    omega
  · rw [lor_eq_add 4 (S / 16777216 % 256 / 2 ^ 4) (S / 4294967296 % 256 * 2 ^ 4 % 128)
      (by omega) (by omega)]
    omega
  · rw [lor_eq_add 5 (S / 4294967296 % 256 / 2 ^ 3) (S / 1099511627776 % 256 * 2 ^ 5 % 128)
      (by omega) (by omega)]
    omega
  · rw [lor_eq_add 6 (S / 1099511627776 % 256 / 2 ^ 2)
      (S / 281474976710656 % 256 * 2 ^ 6 % 128) (by omega) (by omega)]
    omega
  · omega

lemma pack_cons (a0 a1 a2 a3 a4 a5 a6 a7 : Nat) (rest : List Nat) :
    ascii_pack (a0 :: a1 :: a2 :: a3 :: a4 :: a5 :: a6 :: a7 :: rest) =
      bytes7 (ascii_pack_block (load64 [a0, a1, a2, a3, a4, a5, a6, a7])) ++ ascii_pack rest :=
  rfl

lemma roundtrip_aux (s : List Nat) : AllAscii s → ∀ p, p < 256 →
    ascii_unpack p (ascii_pack s) s.length = s := by
  induction s using ascii_pack.induct with
  | case1 a0 a1 a2 a3 a4 a5 a6 a7 rest ih =>
    intro h p hp
    have h0 : a0 < 128 := h a0 (by simp)
    have h1 : a1 < 128 := h a1 (by simp)
    have h2 : a2 < 128 := h a2 (by simp)
    have h3 : a3 < 128 := h a3 (by simp)
    have h4 : a4 < 128 := h a4 (by simp)
    have h5 : a5 < 128 := h a5 (by simp)
    have h6 : a6 < 128 := h a6 (by simp)
    have h7 : a7 < 128 := h a7 (by simp)
    have hrest : AllAscii rest := fun b hb => h b (by simp [hb])
    rw [pack_cons, pack_block_eq a0 a1 a2 a3 a4 a5 a6 a7 h0 h1 h2 h3 h4 h5 h6 h7]
    have hl : (a0 :: a1 :: a2 :: a3 :: a4 :: a5 :: a6 :: a7 :: rest).length =
        8 + rest.length := by
      simp only [List.length_cons]
      omega
    rw [hl]
    rw [unpack_pack_block p a0 a1 a2 a3 a4 a5 a6 a7 (ascii_pack rest) rest.length hp
      h0 h1 h2 h3 h4 h5 h6 h7]
    simp only [List.cons.injEq, true_and]
    exact ih hrest _ (by omega)
  | case2 tail hne =>
    intro h p hp
    have hlt : tail.length < 8 := short_of_not8 tail hne
    rw [pack_short tail hlt, unpack_short p tail tail.length hlt, List.take_length]

end Dfly

/-! ## Claim theorems -/

namespace Dfly

/-- C1: the vectorized packer `ascii_pack_simd` is claimed to write output
byte-identical to the scalar `ascii_pack` on every all-ASCII input it is
invoked on.  The code violates this: its inner loop discards the results
of `_mm_srli_epi64`/`_mm_or_si128` (`bitpacking.cc:88-90`), so for the
32-byte all-ASCII buffer of `'a'` (0x61) the vector path emits
`[0x61, 0, 0, ...]` for the first lane while the scalar path emits
`[0xE1, 0x70, ...]`. -/
theorem C1_simd_pack_diverges_from_scalar :
    AllAscii (List.replicate 32 97) ∧
    ascii_pack_simd (List.replicate 32 97) ≠ ascii_pack (List.replicate 32 97) := by
  constructor
  · decide
  · decide

/-- C2: for every all-ASCII string `s` (every byte a 7-bit value) and its
length, `ascii_unpack (ascii_pack s) |s| = s` — packing is lossless. -/
theorem C2_pack_unpack_roundtrip (s : List Nat) (h : AllAscii s) :
    ascii_unpack 0 (ascii_pack s) s.length = s :=
  roundtrip_aux s h 0 (by omega)

/-- Witness for C2 at the concrete all-ASCII input "aaaaaabb" of the
repository's `AsciiUtil` test data. -/
theorem C2_pack_unpack_roundtrip_witness :
    ascii_unpack 0 (ascii_pack [97, 97, 97, 97, 97, 97, 98, 98]) 8 =
      [97, 97, 97, 97, 97, 97, 98, 98] :=
  C2_pack_unpack_roundtrip [97, 97, 97, 97, 97, 97, 98, 98] (by decide)

end Dfly

namespace Dfly

lemma cp_cons (p0 p1 p2 p3 p4 p5 p6 : Nat) (prest : List Nat)
    (a0 a1 a2 a3 a4 a5 a6 a7 : Nat) (arest : List Nat) :
    compare_packed (p0 :: p1 :: p2 :: p3 :: p4 :: p5 :: p6 :: prest)
      (a0 :: a1 :: a2 :: a3 :: a4 :: a5 :: a6 :: a7 :: arest) =
      ((decide ((((a0 >>> 0) ||| (a1 <<< 7)) &&& 0xFF) = p0) &&
        decide ((((a1 >>> 1) ||| (a2 <<< 6)) &&& 0xFF) = p1) &&
        decide ((((a2 >>> 2) ||| (a3 <<< 5)) &&& 0xFF) = p2) &&
        decide ((((a3 >>> 3) ||| (a4 <<< 4)) &&& 0xFF) = p3) &&
        decide ((((a4 >>> 4) ||| (a5 <<< 3)) &&& 0xFF) = p4) &&
        decide ((((a5 >>> 5) ||| (a6 <<< 2)) &&& 0xFF) = p5) &&
        decide ((((a6 >>> 6) ||| (a7 <<< 1)) &&& 0xFF) = p6)) &&
       compare_packed prest arest) :=
  rfl

lemma cp_short (packed ascii : List Nat) (h : ascii.length < 8) :
    compare_packed packed ascii = cmp_tail packed ascii := by
  rcases ascii with _ | ⟨a0, _ | ⟨a1, _ | ⟨a2, _ | ⟨a3, _ | ⟨a4, _ | ⟨a5, _ | ⟨a6, _ | ⟨a7, r⟩⟩⟩⟩⟩⟩⟩⟩
  · rw [compare_packed.eq_def]
  · rw [compare_packed.eq_def]
  · rw [compare_packed.eq_def]
  · rw [compare_packed.eq_def]
  · rw [compare_packed.eq_def]
  · rw [compare_packed.eq_def]
  · rw [compare_packed.eq_def]
  · rw [compare_packed.eq_def]
  · simp only [List.length_cons] at h
    omega

lemma cmp_tail_iff (t : List Nat) : ∀ p : List Nat, p.length = t.length →
    (cmp_tail p t = true ↔ p = t) := by
  induction t with
  | nil =>
    intro p h
    have : p = [] := List.length_eq_zero.mp h
    subst this
    simp [cmp_tail]
  | cons a as ih =>
    intro p h
    rcases p with _ | ⟨x, xs⟩
    · simp at h
    · have hx : cmp_tail (x :: xs) (a :: as) = (a == x && cmp_tail xs as) := rfl
      rw [hx]
      simp only [Bool.and_eq_true, beq_iff_eq, List.cons.injEq]
      rw [ih xs (by simpa using h)]
      constructor
      · rintro ⟨rfl, rfl⟩
        exact ⟨rfl, rfl⟩
      · rintro ⟨rfl, rfl⟩
        exact ⟨rfl, rfl⟩

set_option maxHeartbeats 1000000 in
lemma conv_vals (c0 c1 c2 c3 c4 c5 c6 c7 : Nat)
    (g0 : c0 < 128) (g1 : c1 < 128) (g2 : c2 < 128) (g3 : c3 < 128)
    (g4 : c4 < 128) (g5 : c5 < 128) (g6 : c6 < 128) (g7 : c7 < 128) :
    (((c0 >>> 0) ||| (c1 <<< 7)) &&& 0xFF) =
      (c0 + c1 * 2 ^ 7 + c2 * 2 ^ 14 + c3 * 2 ^ 21 + c4 * 2 ^ 28 +
        c5 * 2 ^ 35 + c6 * 2 ^ 42 + c7 * 2 ^ 49) % 256 ∧
    (((c1 >>> 1) ||| (c2 <<< 6)) &&& 0xFF) =
      (c0 + c1 * 2 ^ 7 + c2 * 2 ^ 14 + c3 * 2 ^ 21 + c4 * 2 ^ 28 +
        c5 * 2 ^ 35 + c6 * 2 ^ 42 + c7 * 2 ^ 49) / 256 % 256 ∧
    (((c2 >>> 2) ||| (c3 <<< 5)) &&& 0xFF) =
      (c0 + c1 * 2 ^ 7 + c2 * 2 ^ 14 + c3 * 2 ^ 21 + c4 * 2 ^ 28 +
        c5 * 2 ^ 35 + c6 * 2 ^ 42 + c7 * 2 ^ 49) / 65536 % 256 ∧
    (((c3 >>> 3) ||| (c4 <<< 4)) &&& 0xFF) =
      (c0 + c1 * 2 ^ 7 + c2 * 2 ^ 14 + c3 * 2 ^ 21 + c4 * 2 ^ 28 +
        c5 * 2 ^ 35 + c6 * 2 ^ 42 + c7 * 2 ^ 49) / 16777216 % 256 ∧
    (((c4 >>> 4) ||| (c5 <<< 3)) &&& 0xFF) =
      (c0 + c1 * 2 ^ 7 + c2 * 2 ^ 14 + c3 * 2 ^ 21 + c4 * 2 ^ 28 +
        c5 * 2 ^ 35 + c6 * 2 ^ 42 + c7 * 2 ^ 49) / 4294967296 % 256 ∧
    (((c5 >>> 5) ||| (c6 <<< 2)) &&& 0xFF) =
      (c0 + c1 * 2 ^ 7 + c2 * 2 ^ 14 + c3 * 2 ^ 21 + c4 * 2 ^ 28 +
        c5 * 2 ^ 35 + c6 * 2 ^ 42 + c7 * 2 ^ 49) / 1099511627776 % 256 ∧
    (((c6 >>> 6) ||| (c7 <<< 1)) &&& 0xFF) =
      (c0 + c1 * 2 ^ 7 + c2 * 2 ^ 14 + c3 * 2 ^ 21 + c4 * 2 ^ 28 +
        c5 * 2 ^ 35 + c6 * 2 ^ 42 + c7 * 2 ^ 49) / 281474976710656 % 256 := by
  set T := c0 + c1 * 2 ^ 7 + c2 * 2 ^ 14 + c3 * 2 ^ 21 + c4 * 2 ^ 28 +
      c5 * 2 ^ 35 + c6 * 2 ^ 42 + c7 * 2 ^ 49 with hT
  simp only [Nat.shiftRight_eq_div_pow, Nat.shiftLeft_eq, and255]
  refine ⟨?_, ?_, ?_, ?_, ?_, ?_, ?_⟩
  · rw [lor_eq_add 7 (c0 / 2 ^ 0) (c1 * 2 ^ 7) (by omega) (by omega)]
    omega
  · rw [lor_eq_add 6 (c1 / 2 ^ 1) (c2 * 2 ^ 6) (by omega) (by omega)]
    omega
  · rw [lor_eq_add 5 (c2 / 2 ^ 2) (c3 * 2 ^ 5) (by omega) (by omega)]
    omega
  · rw [lor_eq_add 4 (c3 / 2 ^ 3) (c4 * 2 ^ 4) (by omega) (by omega)]
    omega
  · rw [lor_eq_add 3 (c4 / 2 ^ 4) (c5 * 2 ^ 3) (by omega) (by omega)]
    omega
  · rw [lor_eq_add 2 (c5 / 2 ^ 5) (c6 * 2 ^ 2) (by omega) (by omega)]
    omega
  · rw [lor_eq_add 1 (c6 / 2 ^ 6) (c7 * 2 ^ 1) (by omega) (by omega)]
    omega

end Dfly

namespace Dfly

set_option maxHeartbeats 1000000 in
lemma block_bytes_inj (a0 a1 a2 a3 a4 a5 a6 a7 c0 c1 c2 c3 c4 c5 c6 c7 : Nat)
    (h0 : a0 < 128) (h1 : a1 < 128) (h2 : a2 < 128) (h3 : a3 < 128)
    (h4 : a4 < 128) (h5 : a5 < 128) (h6 : a6 < 128) (h7 : a7 < 128)
    (g0 : c0 < 128) (g1 : c1 < 128) (g2 : c2 < 128) (g3 : c3 < 128)
    (g4 : c4 < 128) (g5 : c5 < 128) (g6 : c6 < 128) (g7 : c7 < 128)
    (e0 : (c0 + c1 * 2 ^ 7 + c2 * 2 ^ 14 + c3 * 2 ^ 21 + c4 * 2 ^ 28 +
        c5 * 2 ^ 35 + c6 * 2 ^ 42 + c7 * 2 ^ 49) % 256 =
      (a0 + a1 * 2 ^ 7 + a2 * 2 ^ 14 + a3 * 2 ^ 21 + a4 * 2 ^ 28 +
        a5 * 2 ^ 35 + a6 * 2 ^ 42 + a7 * 2 ^ 49) % 256)
    (e1 : (c0 + c1 * 2 ^ 7 + c2 * 2 ^ 14 + c3 * 2 ^ 21 + c4 * 2 ^ 28 +
        c5 * 2 ^ 35 + c6 * 2 ^ 42 + c7 * 2 ^ 49) / 256 % 256 =
      (a0 + a1 * 2 ^ 7 + a2 * 2 ^ 14 + a3 * 2 ^ 21 + a4 * 2 ^ 28 +
        a5 * 2 ^ 35 + a6 * 2 ^ 42 + a7 * 2 ^ 49) / 256 % 256)
    (e2 : (c0 + c1 * 2 ^ 7 + c2 * 2 ^ 14 + c3 * 2 ^ 21 + c4 * 2 ^ 28 +
        c5 * 2 ^ 35 + c6 * 2 ^ 42 + c7 * 2 ^ 49) / 65536 % 256 =
      (a0 + a1 * 2 ^ 7 + a2 * 2 ^ 14 + a3 * 2 ^ 21 + a4 * 2 ^ 28 +
        a5 * 2 ^ 35 + a6 * 2 ^ 42 + a7 * 2 ^ 49) / 65536 % 256)
    (e3 : (c0 + c1 * 2 ^ 7 + c2 * 2 ^ 14 + c3 * 2 ^ 21 + c4 * 2 ^ 28 +
        c5 * 2 ^ 35 + c6 * 2 ^ 42 + c7 * 2 ^ 49) / 16777216 % 256 =
      (a0 + a1 * 2 ^ 7 + a2 * 2 ^ 14 + a3 * 2 ^ 21 + a4 * 2 ^ 28 +
        a5 * 2 ^ 35 + a6 * 2 ^ 42 + a7 * 2 ^ 49) / 16777216 % 256)
    (e4 : (c0 + c1 * 2 ^ 7 + c2 * 2 ^ 14 + c3 * 2 ^ 21 + c4 * 2 ^ 28 +
        c5 * 2 ^ 35 + c6 * 2 ^ 42 + c7 * 2 ^ 49) / 4294967296 % 256 =
      (a0 + a1 * 2 ^ 7 + a2 * 2 ^ 14 + a3 * 2 ^ 21 + a4 * 2 ^ 28 +
        a5 * 2 ^ 35 + a6 * 2 ^ 42 + a7 * 2 ^ 49) / 4294967296 % 256)
    (e5 : (c0 + c1 * 2 ^ 7 + c2 * 2 ^ 14 + c3 * 2 ^ 21 + c4 * 2 ^ 28 +
        c5 * 2 ^ 35 + c6 * 2 ^ 42 + c7 * 2 ^ 49) / 1099511627776 % 256 =
      (a0 + a1 * 2 ^ 7 + a2 * 2 ^ 14 + a3 * 2 ^ 21 + a4 * 2 ^ 28 +
        a5 * 2 ^ 35 + a6 * 2 ^ 42 + a7 * 2 ^ 49) / 1099511627776 % 256)
    (e6 : (c0 + c1 * 2 ^ 7 + c2 * 2 ^ 14 + c3 * 2 ^ 21 + c4 * 2 ^ 28 +
        c5 * 2 ^ 35 + c6 * 2 ^ 42 + c7 * 2 ^ 49) / 281474976710656 % 256 =
      (a0 + a1 * 2 ^ 7 + a2 * 2 ^ 14 + a3 * 2 ^ 21 + a4 * 2 ^ 28 +
        a5 * 2 ^ 35 + a6 * 2 ^ 42 + a7 * 2 ^ 49) / 281474976710656 % 256) :
    a0 = c0 ∧ a1 = c1 ∧ a2 = c2 ∧ a3 = c3 ∧ a4 = c4 ∧ a5 = c5 ∧ a6 = c6 ∧ a7 = c7 := by
  have hT : c0 + c1 * 2 ^ 7 + c2 * 2 ^ 14 + c3 * 2 ^ 21 + c4 * 2 ^ 28 +
      c5 * 2 ^ 35 + c6 * 2 ^ 42 + c7 * 2 ^ 49 =
      a0 + a1 * 2 ^ 7 + a2 * 2 ^ 14 + a3 * 2 ^ 21 + a4 * 2 ^ 28 +
        a5 * 2 ^ 35 + a6 * 2 ^ 42 + a7 * 2 ^ 49 := by
    omega
  omega

end Dfly

namespace Dfly

set_option maxHeartbeats 2000000 in
lemma cp_iff (s : List Nat) : AllAscii s → ∀ t : List Nat, AllAscii t → t.length = s.length →
    (compare_packed (ascii_pack s) t = true ↔ s = t) := by
  induction s using ascii_pack.induct with
  | case1 a0 a1 a2 a3 a4 a5 a6 a7 rest ih =>
    intro hs t ht hlen
    have h0 : a0 < 128 := hs a0 (by simp)
    have h1 : a1 < 128 := hs a1 (by simp)
    have h2 : a2 < 128 := hs a2 (by simp)
    have h3 : a3 < 128 := hs a3 (by simp)
    have h4 : a4 < 128 := hs a4 (by simp)
    have h5 : a5 < 128 := hs a5 (by simp)
    have h6 : a6 < 128 := hs a6 (by simp)
    have h7 : a7 < 128 := hs a7 (by simp)
    have hrest : AllAscii rest := fun b hb => hs b (by simp [hb])
    rcases t with _ | ⟨c0, _ | ⟨c1, _ | ⟨c2, _ | ⟨c3, _ | ⟨c4, _ | ⟨c5, _ | ⟨c6, _ | ⟨c7, trest⟩⟩⟩⟩⟩⟩⟩⟩
    · simp only [List.length_nil, List.length_cons] at hlen
      omega
    · simp only [List.length_cons, List.length_nil] at hlen
      omega
    · simp only [List.length_cons, List.length_nil] at hlen
      omega
    · simp only [List.length_cons, List.length_nil] at hlen
      omega
    · simp only [List.length_cons, List.length_nil] at hlen
      omega
    · simp only [List.length_cons, List.length_nil] at hlen
      omega
    · simp only [List.length_cons, List.length_nil] at hlen
      omega
    · simp only [List.length_cons, List.length_nil] at hlen
      omega
    have g0 : c0 < 128 := ht c0 (by simp)
    have g1 : c1 < 128 := ht c1 (by simp)
    have g2 : c2 < 128 := ht c2 (by simp)
    have g3 : c3 < 128 := ht c3 (by simp)
    have g4 : c4 < 128 := ht c4 (by simp)
    have g5 : c5 < 128 := ht c5 (by simp)
    have g6 : c6 < 128 := ht c6 (by simp)
    have g7 : c7 < 128 := ht c7 (by simp)
    have htrest : AllAscii trest := fun b hb => ht b (by simp [hb])
    have hlen8 : trest.length = rest.length := by
      simp only [List.length_cons] at hlen
      omega
    rw [pack_cons, pack_block_eq a0 a1 a2 a3 a4 a5 a6 a7 h0 h1 h2 h3 h4 h5 h6 h7,
      bytes7_eq]
    simp only [List.cons_append]
    rw [cp_cons]
    obtain ⟨v0, v1, v2, v3, v4, v5, v6⟩ := conv_vals c0 c1 c2 c3 c4 c5 c6 c7
      g0 g1 g2 g3 g4 g5 g6 g7
    simp only [Bool.and_eq_true, decide_eq_true_eq, List.cons.injEq]
    rw [v0, v1, v2, v3, v4, v5, v6]
    have hr := ih hrest trest htrest hlen8
    constructor
    · rintro ⟨⟨⟨⟨⟨⟨⟨e0, e1⟩, e2⟩, e3⟩, e4⟩, e5⟩, e6⟩, er⟩
      obtain ⟨q0, q1, q2, q3, q4, q5, q6, q7⟩ :=
        block_bytes_inj a0 a1 a2 a3 a4 a5 a6 a7 c0 c1 c2 c3 c4 c5 c6 c7
          h0 h1 h2 h3 h4 h5 h6 h7 g0 g1 g2 g3 g4 g5 g6 g7 e0 e1 e2 e3 e4 e5 e6
      exact ⟨q0, q1, q2, q3, q4, q5, q6, q7, hr.mp er⟩
    · rintro ⟨rfl, rfl, rfl, rfl, rfl, rfl, rfl, rfl, er⟩
      exact ⟨⟨⟨⟨⟨⟨⟨rfl, rfl⟩, rfl⟩, rfl⟩, rfl⟩, rfl⟩, rfl⟩, hr.mpr er⟩
  | case2 tail hne =>
    intro hs t ht hlen
    have hlt : tail.length < 8 := short_of_not8 tail hne
    rw [pack_short tail hlt, cp_short tail t (by omega)]
    exact cmp_tail_iff t tail (by omega)

end Dfly

namespace Dfly

/-- C3: for every all-ASCII string `s`, `compare_packed (ascii_pack s) s`
returns true; and changing any single byte of `s` (to a different ASCII
byte) makes it return false. -/
theorem C3_compare_packed_correct :
    (∀ s : List Nat, AllAscii s → compare_packed (ascii_pack s) s = true) ∧
    (∀ (s : List Nat) (k c : Nat) (hs : AllAscii s) (hk : k < s.length),
      c < 128 → c ≠ s[k] → compare_packed (ascii_pack s) (s.set k c) = false) := by
  constructor
  · intro s hs
    exact (cp_iff s hs s hs rfl).mpr rfl
  · intro s k c hs hk hc hne
    have hset : AllAscii (s.set k c) := by
      intro b hb
      rcases List.mem_or_eq_of_mem_set hb with h | h
      · exact hs b h
      · omega
    have hlen : (s.set k c).length = s.length := List.length_set s k c
    by_contra hcmp
    rw [Bool.not_eq_false] at hcmp
    have heq : s = s.set k c := (cp_iff s hs (s.set k c) hset hlen).mp hcmp
    have h1 : s[k]? = (s.set k c)[k]? := congrArg (fun l => l[k]?) heq
    rw [List.getElem?_set_self (by simpa using hk), List.getElem?_eq_getElem hk] at h1
    exact hne (Option.some.inj h1).symm

theorem C3_compare_packed_correct_witness :
    compare_packed (ascii_pack [107, 101, 121, 58, 48, 48, 48, 48, 48, 48]) 
      [107, 101, 121, 58, 48, 48, 48, 48, 48, 48] = true ∧
    compare_packed (ascii_pack [107, 101, 121, 58, 48, 48, 48, 48, 48, 48])
      ([107, 101, 121, 58, 48, 48, 48, 48, 48, 48].set 5 49) = false :=
  ⟨C3_compare_packed_correct.1 [107, 101, 121, 58, 48, 48, 48, 48, 48, 48] (by decide),
   C3_compare_packed_correct.2 [107, 101, 121, 58, 48, 48, 48, 48, 48, 48] 5 49 (by decide)
     (by decide) (by decide) (by decide)⟩

end Dfly

namespace Dfly

lemma bit7_of_lor (x y : Nat) : (x ||| y) / 128 % 2 = 0 ↔ x / 128 % 2 = 0 ∧ y / 128 % 2 = 0 := by
  have h := Nat.testBit_or x y 7
  simp only [Nat.testBit_to_div_mod] at h
  have h2 : ((x ||| y) / 2 ^ 7 % 2 = 1) ↔ (x / 2 ^ 7 % 2 = 1 ∨ y / 2 ^ 7 % 2 = 1) := by
    have := congrArg (fun b => b = true) h
    simpa [decide_eq_true_eq, Bool.or_eq_true] using this
  norm_num at h2
  omega

lemma and128_eq_zero_iff (x : Nat) : x &&& 128 = 0 ↔ x / 128 % 2 = 0 := by
  have h : x &&& 128 = (x.testBit 7).toNat * 2 ^ 7 := by
    have := Nat.and_two_pow x 7
    norm_num at this ⊢
    exact this
  rw [h]
  simp only [Nat.testBit_to_div_mod]
  norm_num

lemma lor_eq_zero_iff (x y : Nat) : x ||| y = 0 ↔ x = 0 ∧ y = 0 := by
  constructor
  · intro h
    constructor
    · apply Nat.eq_of_testBit_eq
      intro i
      have := congrArg (fun n => n.testBit i) h
      simp only [Nat.testBit_or, Nat.zero_testBit, Bool.or_eq_false_iff] at this
      simp [this.1]
    · apply Nat.eq_of_testBit_eq
      intro i
      have := congrArg (fun n => n.testBit i) h
      simp only [Nat.testBit_or, Nat.zero_testBit, Bool.or_eq_false_iff] at this
      simp [this.2]
  · rintro ⟨rfl, rfl⟩
    rfl

lemma movemask_zero_iff (l : List Nat) : movemask l = 0 ↔ ∀ b ∈ l, b / 128 % 2 = 0 := by
  induction l with
  | nil => simp [movemask]
  | cons b rest ih =>
    have hstep : movemask (b :: rest) = 2 * movemask rest + b / 128 % 2 := by
      simp only [movemask, List.foldr_cons, Nat.shiftRight_eq_div_pow]
      rw [Nat.and_one_is_mod]
    rw [hstep]
    simp only [List.forall_mem_cons]
    rw [← ih]
    omega

lemma movemask_or128_zero (a b : List Nat) (h : a.length = b.length) :
    movemask (or128 a b) = 0 ↔ movemask a = 0 ∧ movemask b = 0 := by
  induction a generalizing b with
  | nil =>
    rcases b with _ | ⟨y, ys⟩
    · simp [or128, movemask]
    · simp at h
  | cons x xs ih =>
    rcases b with _ | ⟨y, ys⟩
    · simp at h
    · have hx : or128 (x :: xs) (y :: ys) = (x ||| y) :: or128 xs ys := rfl
      rw [hx, movemask_zero_iff, movemask_zero_iff, movemask_zero_iff]
      simp only [List.forall_mem_cons]
      have hb := bit7_of_lor x y
      have hih : (∀ c ∈ or128 xs ys, c / 128 % 2 = 0) ↔
          (∀ c ∈ xs, c / 128 % 2 = 0) ∧ (∀ c ∈ ys, c / 128 % 2 = 0) := by
        rw [← movemask_zero_iff, ← movemask_zero_iff, ← movemask_zero_iff]
        exact ih ys (by simpa using h)
      rw [hb, hih]
      tauto

end Dfly

namespace Dfly

lemma foldl_or_bit7 (l : List Nat) : ∀ acc : Nat,
    (l.foldl (fun a b => a ||| b) acc) / 128 % 2 = 0 ↔
      (acc / 128 % 2 = 0 ∧ ∀ b ∈ l, b / 128 % 2 = 0) := by
  induction l with
  | nil => intro acc; simp
  | cons x xs ih =>
    intro acc
    simp only [List.foldl_cons, List.forall_mem_cons]
    rw [ih (acc ||| x), bit7_of_lor]
    tauto

lemma tail_or_bit7 (l : List Nat) :
    tail_or l &&& 128 = 0 ↔ ∀ b ∈ l, b / 128 % 2 = 0 := by
  rw [tail_or, and128_eq_zero_iff, foldl_or_bit7]
  simp

set_option maxHeartbeats 1000000 in
lemma validate_loop_spec : ∀ lanes l : List Nat, lanes.length = 16 →
    ((movemask (validate_loop lanes l).1 ||| (tail_or (validate_loop lanes l).2 &&& 128)) = 0 ↔
      (movemask lanes = 0 ∧ ∀ b ∈ l, b / 128 % 2 = 0)) := by
  intro lanes l
  induction lanes, l using validate_loop.induct with
  | case1 lanes l h ih =>
    intro hlen
    have hchunk : (l.take 16).length = 16 := by
      simp only [List.length_take]
      omega
    have hlen2 : (or128 lanes (l.take 16)).length = 16 := by
      simp only [or128, List.length_zipWith]
      omega
    rw [validate_loop.eq_def, dif_pos h, ih hlen2,
      movemask_or128_zero lanes (l.take 16) (by omega)]
    constructor
    · rintro ⟨⟨h1, h2⟩, h3⟩
      refine ⟨h1, ?_⟩
      intro b hb
      rw [← List.take_append_drop 16 l] at hb
      rcases List.mem_append.mp hb with hb | hb
      · exact (movemask_zero_iff (l.take 16)).mp h2 b hb
      · exact h3 b hb
    · rintro ⟨h1, h2⟩
      exact ⟨⟨h1, (movemask_zero_iff (l.take 16)).mpr
          fun b hb => h2 b (List.take_subset 16 l hb)⟩,
        fun b hb => h2 b (List.drop_subset 16 l hb)⟩
  | case2 lanes l h =>
    intro hlen
    rw [validate_loop.eq_def, dif_neg h]
    rw [lor_eq_zero_iff, tail_or_bit7]

/-- The validator iff at the heart of C4. -/
lemma validate_iff (l : List Nat) (h : ∀ b ∈ l, b < 256) :
    validate_ascii_fast l = true ↔ ∀ b ∈ l, b < 128 := by
  rw [validate_ascii_fast]
  rw [beq_iff_eq]
  rw [validate_loop_spec (List.replicate 16 0) l (by simp)]
  have h1 : movemask (List.replicate 16 0) = 0 := by decide
  simp only [h1, true_and]
  constructor
  · intro hb b hbl
    have := hb b hbl
    have := h b hbl
    omega
  · intro hb b hbl
    have := hb b hbl
    omega

end Dfly

namespace Dfly

/-- C4: for every buffer of bytes and every length (below, at, and above
the 16-byte SIMD lane boundary), `validate_ascii_fast` returns true iff
every byte has its high bit (0x80) clear; setting the high bit of any
single byte makes it return false. -/
theorem C4_validate_ascii_fast_correct :
    (∀ l : List Nat, (∀ b ∈ l, b < 256) →
      (validate_ascii_fast l = true ↔ AllAscii l)) ∧
    (∀ (l : List Nat) (k : Nat) (hk : k < l.length), (∀ b ∈ l, b < 256) →
      validate_ascii_fast (l.set k (l[k] ||| 128)) = false) := by
  constructor
  · intro l h
    exact validate_iff l h
  · intro l k hk h256
    have hmem : l[k] ||| 128 ∈ l.set k (l[k] ||| 128) := List.mem_set l k hk _
    have hklt : l[k] < 256 := h256 _ (List.getElem_mem hk)
    have h256s : ∀ b ∈ l.set k (l[k] ||| 128), b < 256 := by
      intro b hb
      rcases List.mem_or_eq_of_mem_set hb with hb | hb
      · exact h256 b hb
      · subst hb
        have : l[k] ||| 128 < 2 ^ 8 := Nat.or_lt_two_pow (by omega) (by norm_num)
        omega
    have hbig : ¬ (l[k] ||| 128) < 128 := by
      have hb := bit7_of_lor (l[k]) 128
      omega
    by_contra hcontra
    rw [Bool.not_eq_false] at hcontra
    have hall := (validate_iff _ h256s).mp hcontra
    exact hbig (hall _ hmem)

/-- Witness for C4 at a concrete 17-byte buffer (one full SIMD lane plus a
tail byte). -/
theorem C4_validate_ascii_fast_correct_witness :
    (validate_ascii_fast [104, 101, 108, 108, 111, 32, 119, 111, 114, 108, 100, 33, 104,
        101, 108, 108, 111] = true ↔
      AllAscii [104, 101, 108, 108, 111, 32, 119, 111, 114, 108, 100, 33, 104,
        101, 108, 108, 111]) ∧
    validate_ascii_fast ([104, 101, 108, 108, 111, 32, 119, 111, 114, 108, 100, 33, 104,
        101, 108, 108, 111].set 3
      ([104, 101, 108, 108, 111, 32, 119, 111, 114, 108, 100, 33, 104,
        101, 108, 108, 111][3] ||| 128)) = false :=
  ⟨C4_validate_ascii_fast_correct.1 _ (by decide),
   C4_validate_ascii_fast_correct.2
     [104, 101, 108, 108, 111, 32, 119, 111, 114, 108, 100, 33, 104, 101, 108, 108, 111] 3
     (by decide) (by decide)⟩

end Dfly

namespace Dfly

/-- C5: `HashCode` is a deterministic function of the logical string bytes
only — any two CompactObj instances with equal logical bytes hash equally
and compare equal, whatever their representation; `SetString` of an
inline-packable ASCII string hashes identically to the raw representation
and equals the fixed-seed XXH3 of the bytes (shown for the test string
"key:0000000000000"); the model reproduces the two 64-bit constants the
test documents (`compact_object_test.cc:100,128`). -/
theorem C5_hashcode_content_only :
    (∀ (h : List Nat → Nat) (o1 o2 : CompactObj), o1.logicalBytes = o2.logicalBytes →
      o1.hashCodeWith h = o2.hashCodeWith h ∧ o1.equalsContent o2 = true) ∧
    (∀ s : List Nat, AllAscii s → isCanonicalInt s = false →
      binpacked_len s.length ≤ kInlineCapacity →
      (CompactObj.setString s).HashCode = (CompactObj.inlineRaw s).HashCode ∧
      (CompactObj.setString s).HashCode = CompactObjHashCode s) ∧
    (CompactObj.setString ([107, 101, 121, 58] ++ List.replicate 13 48)).HashCode =
      CompactObjHashCode ([107, 101, 121, 58] ++ List.replicate 13 48) ∧
    xxh3_64 (List.replicate 22 97) kSeed = 18261733907982517826 ∧
    xxh3_64 [52, 50] kSeed = 8181779779123079347 := by
  have main2 : ∀ s : List Nat, AllAscii s → isCanonicalInt s = false →
      binpacked_len s.length ≤ kInlineCapacity →
      (CompactObj.setString s).HashCode = (CompactObj.inlineRaw s).HashCode ∧
      (CompactObj.setString s).HashCode = CompactObjHashCode s := by
    intro s hs hnotint hfit
    have hall : s.all (fun b => b < 128) = true := by
      rw [List.all_eq_true]
      intro b hb
      exact decide_eq_true (hs b hb)
    have hset : CompactObj.setString s = CompactObj.inlinePacked (ascii_pack s) s.length := by
      rw [CompactObj.setString, if_neg (by simp [hnotint]), if_pos (by simp [hall, hfit])]
    rw [hset]
    have hlogical : (CompactObj.inlinePacked (ascii_pack s) s.length).logicalBytes = s := by
      rw [CompactObj.logicalBytes]
      exact roundtrip_aux s hs 0 (by omega)
    constructor
    · rw [CompactObj.HashCode, CompactObj.HashCode, CompactObj.hashCodeWith,
        CompactObj.hashCodeWith, hlogical]
      rfl
    · rw [CompactObj.HashCode, CompactObj.hashCodeWith, hlogical]
  refine ⟨?_, main2, ?_, ?_, ?_⟩
  · intro h o1 o2 he
    constructor
    · rw [CompactObj.hashCodeWith, CompactObj.hashCodeWith, he]
    · rw [CompactObj.equalsContent, he]
      simp
  · exact (main2 ([107, 101, 121, 58] ++ List.replicate 13 48) (by decide) (by decide)
      (by decide)).2
  · decide
  · decide

end Dfly

namespace Dfly

/-- Witness for C5 at concrete objects and the 3-byte string "key". -/
theorem C5_hashcode_content_only_witness :
    ((CompactObj.inlineRaw [107]).hashCodeWith List.length =
        (CompactObj.heapStr [107]).hashCodeWith List.length ∧
      (CompactObj.inlineRaw [107]).equalsContent (CompactObj.heapStr [107]) = true) ∧
    (CompactObj.setString [107, 101, 121]).HashCode =
      (CompactObj.inlineRaw [107, 101, 121]).HashCode :=
  ⟨C5_hashcode_content_only.1 List.length _ _ rfl,
   (C5_hashcode_content_only.2.1 [107, 101, 121] (by decide) (by decide) (by decide)).1⟩

end Dfly

namespace Dfly

lemma le64_load (v : Nat) (hv : v < 2 ^ 64) : load64 (le64 v) = v := by
  rw [load64, List.take_of_length_le (by simp [le64])]
  simp only [le64, List.foldr_cons, List.foldr_nil]
  omega

lemma drop_entry (field : List Nat) (v : Nat) :
    (field ++ 0 :: le64 v).drop (field.length + 1) = le64 v := by
  rw [show field.length + 1 = field.length + 1 from rfl]
  rw [List.drop_append]
  rfl

lemma getvalue_entryKey (field : List Nat) (v : Nat) (hv : v < 2 ^ 64) :
    GetValue (entryKey field v) = v := by
  rw [GetValue, entryKey]
  simp only [sdslen]
  rw [drop_entry, le64_load v hv]

lemma take_entry (field : List Nat) (v : Nat) :
    (field ++ 0 :: le64 v).take field.length = field := by
  rw [List.take_left]

end Dfly

namespace Dfly

lemma map_store_id (blocks : List (Nat × SdsBuf)) (a : Nat) (b : SdsBuf)
    (h : ∀ p ∈ blocks, p.1 ≠ a) :
    blocks.map (fun p => if p.1 = a then (a, b) else p) = blocks := by
  induction blocks with
  | nil => rfl
  | cons x xs ih =>
    simp only [List.map_cons]
    rw [if_neg (h x (by simp)), ih (fun p hp => h p (by simp [hp]))]

lemma filter_ne_id (blocks : List (Nat × SdsBuf)) (a : Nat)
    (h : ∀ p ∈ blocks, p.1 ≠ a) :
    blocks.filter (fun p => p.1 ≠ a) = blocks := by
  induction blocks with
  | nil => rfl
  | cons x xs ih =>
    rw [List.filter_cons_of_pos (by simpa using h x (by simp)),
      ih (fun p hp => h p (by simp [hp]))]

lemma objDelete_lookup (h : Heap) (k : Nat) (key : SdsBuf) (b : Bool)
    (hl : h.lookup k = some key) :
    StringMapObjDelete h k b = (h.free (GetValue key)).free k := by
  simp [StringMapObjDelete, hl]

/-- Computing `AddOrSet` on a fresh field: both allocations stay live, the
key block holds the documented entry layout. -/
lemma addOrSet_ok (fields : List (List Nat)) (h : Heap) (field value : List Nat)
    (hWF : h.WF) (hnew : field ∉ fields) :
    StringMapAddOrSet fields h field value UINT32_MAX =
      AddResult.ok (field :: fields)
        ⟨h.next + 2, (h.next + 1, ⟨value.length, value⟩) ::
          (h.next, entryKey field (h.next + 1)) :: h.blocks⟩
        h.next := by
  rw [StringMapAddOrSet, if_neg (by simp)]
  simp only [Heap.alloc, Heap.store]
  rw [if_neg hnew]
  simp only [List.map_cons]
  rw [if_neg (by omega), if_pos trivial]
  rw [map_store_id h.blocks h.next _ (fun p hp => by have := hWF.1 p hp; omega)]

/-- Computing `AddOrSet` on a duplicate field: the fresh key and value
blocks are both freed before the fatal path, leaving the original blocks. -/
lemma addOrSet_dup (fields : List (List Nat)) (h : Heap) (field value : List Nat)
    (hWF : h.WF) (hdup : field ∈ fields) :
    StringMapAddOrSet fields h field value UINT32_MAX =
      AddResult.fatalDup ⟨h.next + 2, h.blocks⟩ := by
  rw [StringMapAddOrSet, if_neg (by simp)]
  simp only [Heap.alloc, Heap.store]
  rw [if_pos hdup]
  simp only [List.map_cons]
  rw [if_neg (by omega), if_pos trivial]
  rw [map_store_id h.blocks h.next _ (fun p hp => by have := hWF.1 p hp; omega)]
  have hlook : Heap.lookup ⟨h.next + 1 + 1, (h.next + 1, ⟨value.length, value⟩) ::
      (h.next, entryKey field (h.next + 1)) :: h.blocks⟩ h.next =
      some (entryKey field (h.next + 1)) := by
    rw [Heap.lookup]
    rw [List.find?_cons_of_neg _ (by simp), List.find?_cons_of_pos _ (by simp)]
    rfl
  rw [objDelete_lookup _ _ _ _ hlook]
  rw [getvalue_entryKey field (h.next + 1) (by have := hWF.2; omega)]
  simp only [Heap.free]
  congr 1
  rw [List.filter_cons_of_neg (by simp), List.filter_cons_of_pos (by simp)]
  rw [filter_ne_id h.blocks (h.next + 1) (fun p hp => by have := hWF.1 p hp; omega)]
  rw [List.filter_cons_of_neg (by simp)]
  rw [filter_ne_id h.blocks h.next (fun p hp => by have := hWF.1 p hp; omega)]

end Dfly

namespace Dfly

/-- C6: every entry key created by `StringMap::AddOrSet(field, value, ttl)`
is a single allocation laid out as the field bytes, a NUL byte, then the
8-byte little-endian address of the separately allocated value buffer; both
blocks are live after insertion, and `GetValue` recovers exactly the value
buffer address from the trailing 8 bytes. -/
theorem C6_entry_key_layout :
    (∀ (field : List Nat) (v : Nat), v < 2 ^ 64 → GetValue (entryKey field v) = v) ∧
    (∀ (fields : List (List Nat)) (h : Heap) (field value : List Nat),
      h.WF → field ∉ fields →
      StringMapAddOrSet fields h field value UINT32_MAX =
        AddResult.ok (field :: fields)
          ⟨h.next + 2, (h.next + 1, ⟨value.length, value⟩) ::
            (h.next, entryKey field (h.next + 1)) :: h.blocks⟩ h.next ∧
      (Heap.lookup ⟨h.next + 2, (h.next + 1, ⟨value.length, value⟩) ::
          (h.next, entryKey field (h.next + 1)) :: h.blocks⟩ h.next =
        some (entryKey field (h.next + 1))) ∧
      (Heap.lookup ⟨h.next + 2, (h.next + 1, ⟨value.length, value⟩) ::
          (h.next, entryKey field (h.next + 1)) :: h.blocks⟩ (h.next + 1) =
        some ⟨value.length, value⟩) ∧
      GetValue (entryKey field (h.next + 1)) = h.next + 1) := by
  constructor
  · exact getvalue_entryKey
  · intro fields h field value hWF hnew
    refine ⟨addOrSet_ok fields h field value hWF hnew, ?_, ?_, ?_⟩
    · rw [Heap.lookup]
      rw [List.find?_cons_of_neg _ (by simp), List.find?_cons_of_pos _ (by simp)]
      rfl
    · rw [Heap.lookup]
      rw [List.find?_cons_of_pos _ (by simp)]
      rfl
    · exact getvalue_entryKey field (h.next + 1) (by have := hWF.2; omega)

/-- Witness for C6 on an empty map and heap with field "f", value "vw". -/
theorem C6_entry_key_layout_witness :
    GetValue (entryKey [102] 1) = 1 ∧
    StringMapAddOrSet [] ⟨0, []⟩ [102] [118, 119] UINT32_MAX =
      AddResult.ok [[102]] ⟨2, [(1, ⟨2, [118, 119]⟩), (0, entryKey [102] 1)]⟩ 0 :=
  ⟨C6_entry_key_layout.1 [102] 1 (by norm_num),
   (C6_entry_key_layout.2 [] ⟨0, []⟩ [102] [118, 119]
     ⟨by simp, by norm_num⟩ (by simp)).1⟩

/-- C7: `StringMap::Hash` and `StringMap::ObjEqual` depend only on the
field bytes of an entry key, never on the embedded value pointer: equal
fields give equal hashes and `ObjEqual = true` even with different value
pointers; `Hash` equals CompactObj's content hash of the field substring;
any cookie other than 0 is a fatal check (modelled as `none`). -/
theorem C7_hash_objequal_field_only :
    (∀ (field : List Nat) (p1 p2 : Nat),
      StringMapHash (entryKey field p1) 0 = some (CompactObjHashCode field) ∧
      StringMapHash (entryKey field p1) 0 = StringMapHash (entryKey field p2) 0 ∧
      StringMapObjEqual (entryKey field p1) (entryKey field p2) 0 = some true) ∧
    (∀ (f1 f2 : List Nat) (p1 p2 : Nat),
      StringMapObjEqual (entryKey f1 p1) (entryKey f2 p2) 0 = some (decide (f1 = f2))) ∧
    (∀ (k1 k2 : SdsBuf) (cookie : Nat), cookie ≠ 0 →
      StringMapHash k1 cookie = none ∧ StringMapObjEqual k1 k2 cookie = none) := by
  have hash_eq : ∀ (field : List Nat) (p : Nat),
      StringMapHash (entryKey field p) 0 = some (CompactObjHashCode field) := by
    intro field p
    rw [StringMapHash, if_neg (by simp)]
    rw [entryKey]
    simp only [sdslen]
    rw [take_entry]
  have objeq : ∀ (f1 f2 : List Nat) (p1 p2 : Nat),
      StringMapObjEqual (entryKey f1 p1) (entryKey f2 p2) 0 = some (decide (f1 = f2)) := by
    intro f1 f2 p1 p2
    rw [StringMapObjEqual, if_neg (by simp)]
    simp only [entryKey, sdslen]
    by_cases hlen : f1.length = f2.length
    · rw [if_neg (by omega)]
      have h2 : (f2 ++ 0 :: le64 p2).take f1.length = f2 := by
        rw [hlen, take_entry]
      simp only [take_entry, h2]
    · rw [if_pos hlen]
      have : f1 ≠ f2 := fun he => hlen (by rw [he])
      simp [this]
  refine ⟨?_, objeq, ?_⟩
  · intro field p1 p2
    refine ⟨hash_eq field p1, ?_, ?_⟩
    · rw [hash_eq field p1, hash_eq field p2]
    · rw [objeq field field p1 p2]
      simp
  · intro k1 k2 cookie hc
    constructor
    · rw [StringMapHash, if_pos hc]
    · rw [StringMapObjEqual, if_pos hc]

/-- Witness for C7: same field "f" with different value pointers 3 and 7,
and a non-zero cookie. -/
theorem C7_hash_objequal_field_only_witness :
    StringMapObjEqual (entryKey [102] 3) (entryKey [102] 7) 0 = some true ∧
    StringMapHash (entryKey [102] 3) 1 = none :=
  ⟨(C7_hash_objequal_field_only.1 [102] 3 7).2.2,
   (C7_hash_objequal_field_only.2.2 (entryKey [102] 3) (entryKey [102] 7) 1
     (by norm_num)).1⟩

/-- C8: `StringMap::AddOrSet(field, value, ttl_sec)` succeeds only when
`ttl_sec` is the no-expiry sentinel `UINT32_MAX` — any other value aborts
before touching the heap; on a duplicate key the freshly allocated key and
value buffers are both released via `ObjDelete` before the fatal
unimplemented-overwrite path, leaving the heap's blocks exactly as before
(no leak). -/
theorem C8_addorset_fatal_paths :
    (∀ (fields : List (List Nat)) (h : Heap) (field value : List Nat) (ttl : Nat),
      ttl ≠ UINT32_MAX →
      StringMapAddOrSet fields h field value ttl = AddResult.fatalTtl h) ∧
    (∀ (fields : List (List Nat)) (h : Heap) (field value : List Nat),
      h.WF → field ∈ fields →
      StringMapAddOrSet fields h field value UINT32_MAX =
        AddResult.fatalDup ⟨h.next + 2, h.blocks⟩) ∧
    (∀ (fields : List (List Nat)) (h : Heap) (field value : List Nat),
      h.WF → field ∉ fields →
      StringMapAddOrSet fields h field value UINT32_MAX =
        AddResult.ok (field :: fields)
          ⟨h.next + 2, (h.next + 1, ⟨value.length, value⟩) ::
            (h.next, entryKey field (h.next + 1)) :: h.blocks⟩ h.next) := by
  refine ⟨?_, addOrSet_dup, addOrSet_ok⟩
  intro fields h field value ttl httl
  rw [StringMapAddOrSet, if_pos httl]

/-- Witness for C8: ttl 0 aborts with the heap untouched; a duplicate
insert aborts with no net block. -/
theorem C8_addorset_fatal_paths_witness :
    StringMapAddOrSet [[102]] ⟨0, []⟩ [102] [118] 0 = AddResult.fatalTtl ⟨0, []⟩ ∧
    StringMapAddOrSet [[102]] ⟨0, []⟩ [102] [118] UINT32_MAX =
      AddResult.fatalDup ⟨2, []⟩ :=
  ⟨C8_addorset_fatal_paths.1 [[102]] ⟨0, []⟩ [102] [118] 0 (by norm_num [UINT32_MAX]),
   C8_addorset_fatal_paths.2.1 [[102]] ⟨0, []⟩ [102] [118]
     ⟨by simp, by norm_num⟩ (by simp)⟩

/-- C9: `StringMap::Erase(field)` returns false ("not found") and leaves
the map contents and heap unchanged for every map state, including when
the field is present. -/
theorem C9_erase_always_not_found :
    ∀ (fields : List (List Nat)) (h : Heap) (field : List Nat),
      StringMapErase fields h field = (false, fields, h) ∧
      (StringMapContains fields field = true →
        StringMapErase fields h field = (false, fields, h)) :=
  fun _ _ _ => ⟨rfl, fun _ => rfl⟩

/-- Witness for C9 on a map that does contain the erased field. -/
theorem C9_erase_always_not_found_witness :
    StringMapErase [[102]] ⟨0, []⟩ [102] = (false, [[102]], ⟨0, []⟩) :=
  (C9_erase_always_not_found [[102]] ⟨0, []⟩ [102]).2 (by decide)

/-- C10: `StringMap::ObjDelete(obj, has_ttl)` behaves identically for
`has_ttl = true` and `has_ttl = false`; in both runs it frees exactly the
value buffer whose address is recovered from the key's trailing 8 bytes,
then the key buffer itself. -/
theorem C10_objdelete_ignores_ttl_flag :
    (∀ (h : Heap) (k : Nat),
      StringMapObjDelete h k true = StringMapObjDelete h k false) ∧
    (∀ (h : Heap) (k : Nat) (b : Bool) (field : List Nat) (v : Nat),
      h.lookup k = some (entryKey field v) → v < 2 ^ 64 →
      StringMapObjDelete h k b = (h.free v).free k) := by
  constructor
  · intro h k
    rfl
  · intro h k b field v hl hv
    rw [objDelete_lookup h k (entryKey field v) b hl, getvalue_entryKey field v hv]

/-- Witness for C10 at a concrete two-block heap. -/
theorem C10_objdelete_ignores_ttl_flag_witness :
    StringMapObjDelete ⟨2, [(0, entryKey [102] 1), (1, ⟨1, [118]⟩)]⟩ 0 true =
      ((⟨2, [(0, entryKey [102] 1), (1, ⟨1, [118]⟩)]⟩ : Heap).free 1).free 0 :=
  C10_objdelete_ignores_ttl_flag.2 ⟨2, [(0, entryKey [102] 1), (1, ⟨1, [118]⟩)]⟩ 0 true
    [102] 1 (by decide) (by norm_num)

end Dfly
